import Mathlib

/-!
Verification of the product classification and synchronization pipeline
(`app.py`, `test.py`): tag-filtered paginated ingestion, LLM-driven
classification into taxonomy buckets, and idempotent synchronization of the
resulting partition to the collection sink.

External collaborators (the product source's HTTP responses, the LLM
classifier's replies, the collection sink's responses) are modelled as
oracles supplied to the embedded functions; everything the repository's own
code does with those responses is translated directly from the source.
-/

set_option maxRecDepth 4000

/-! ## String primitives

Python's `str.lower()`, `str.strip()` and `str.split(",")` are embedded as
character-list computations (Lean's iterator-based `String` functions do not
reduce inside the kernel, which the concrete evaluations below need). -/

/-- Python `s.lower()`: lowercase every character. -/
def lowerString (s : String) : String := ⟨s.data.map Char.toLower⟩

/-- Python `s.strip()`: drop leading and trailing whitespace. -/
def trimString (s : String) : String :=
  ⟨((s.data.dropWhile Char.isWhitespace).reverse.dropWhile Char.isWhitespace).reverse⟩

/-- Python `s.split(",")` on the character list: split at every comma,
keeping empty pieces (so `""` splits to `[""]`, as in Python). -/
def splitCommaChars : List Char → List (List Char)
  | [] => [[]]
  | c :: rest =>
    match splitCommaChars rest with
    | [] => [[c]]
    | g :: gs => if c = ',' then [] :: g :: gs else (c :: g) :: gs

/-- Python `s.split(",")`. -/
def splitComma (s : String) : List String :=
  (splitCommaChars s.data).map (fun cs => ⟨cs⟩)

/-! ## Product records and tag filtering (`app.py` lines 424-431) -/

/-- A minimal product record as ingested: `{"id": p["id"], "title": p["title"]}`,
together with the raw comma-separated `tags` string the filter inspects. -/
structure ShopProduct where
  id : Nat
  title : String
  tags : String
  deriving DecidableEq, Repr

/-- `[t.strip().lower() for t in p.get("tags", "").split(",")]` (line 428). -/
def tagTokens (tags : String) : List String :=
  (splitComma tags).map (fun t => lowerString (trimString t))

/-- Lines 427-429 of `app.py`: a product passes the filter when its `tags`
field is non-empty (`if p.get("tags")`) and the lowercased filter tag is a
member of the stripped, lowercased token list (`tag.lower() in product_tags`).
The route has already stripped the filter tag at parse time (line 381). -/
def productMatchesTag (tags filterTag : String) : Bool :=
  tags != "" && (tagTokens tags).contains (lowerString filterTag)

/-! ## Paginated ingestion (`app.py` lines 400-457) -/

/-- One response of the product source: either an HTTP page (its items plus
whether the `Link` header carries a `rel="next"` cursor), a non-200 status,
or a timeout / network exception from `requests`. -/
inductive PageResp where
  | ok (items : List ShopProduct) (hasNext : Bool)
  | httpError (status : Nat)
  | netFail
  deriving DecidableEq, Repr

/-- `params = {"limit": 250}` (line 401): the page-size cap sent to the source. -/
def pageSizeLimit : Nat := 250

/-- `max_pages = 100` (line 403): the hard safety cap on fetched pages. -/
def maxPages : Nat := 100

/-- The items of a page surviving the tag filter (lines 425-431); an error
response contributes nothing. -/
def pageFiltered (r : PageResp) (filterTag : String) : List ShopProduct :=
  match r with
  | .ok items _ => items.filter (fun p => productMatchesTag p.tags filterTag)
  | _ => []

/-- The `while page_count < max_pages` loop of `fetch_products`
(lines 405-455), with `fuel` the number of loop iterations still allowed and
`page` the 0-based index of the page about to be requested. A non-200 status
returns the error JSON (lines 409-413), as do the `requests` exception
handlers (lines 470-473); an empty page or a missing `rel="next"` cursor
breaks out of the loop; otherwise the filtered items are accumulated in page
order and the loop continues. -/
def fetchGo (pages : Nat → PageResp) (filterTag : String) : Nat → Nat → Except String (List ShopProduct)
  | 0, _ => .ok []
  | fuel + 1, page =>
    match pages page with
    | .httpError s => .error ("Shopify API error: " ++ toString s)
    | .netFail => .error "Network error"
    | .ok items hasNext =>
      if items.isEmpty then .ok []
      else
        let matched := items.filter (fun p => productMatchesTag p.tags filterTag)
        if hasNext then
          (fetchGo pages filterTag fuel (page + 1)).map (fun rest => matched ++ rest)
        else
          .ok matched

/-- The full pagination loop of `fetch_products`: up to `max_pages = 100`
pages starting from the first one. -/
def fetchAll (pages : Nat → PageResp) (filterTag : String) : Except String (List ShopProduct) :=
  fetchGo pages filterTag maxPages 0

/-- Concatenation, in source page order, of the tag-filtered items of pages
`s, s+1, ..., s+k-1`. -/
def concatFrom (pages : Nat → PageResp) (filterTag : String) (s k : Nat) : List ShopProduct :=
  (List.range' s k).flatMap (fun i => pageFiltered (pages i) filterTag)

/-- A page on which the pagination loop continues: a 200 response with at
least one item and a `rel="next"` cursor. -/
def continuingPage : PageResp → Bool
  | .ok items hasNext => !items.isEmpty && hasNext
  | _ => false

/-! ## The fetch route and its session writes (`app.py` lines 375-476) -/

/-- The per-session entry of the in-memory `data_store` relevant to the
fetch route: `shop_url`, `access_token` and `products` keys. -/
structure SessionState where
  shop_url : String
  access_token : String
  products : List ShopProduct
  deriving DecidableEq, Repr

/-- Line 387: `shop_url.replace('https://', '').replace('http://', '').rstrip('/')`. -/
def cleanShopUrl (s : String) : String :=
  (((s.replace "https://" "").replace "http://" "")).dropRightWhile (fun c => c == '/')

/-- Outcome of the `/api/fetch-products` route as seen by the caller. -/
inductive RouteResult where
  | success (products : List ShopProduct)
  | failure (msg : String)
  deriving DecidableEq, Repr

/-- The `/api/fetch-products` route (lines 375-476): strip the three fields,
reject when any is empty (line 383), clean the shop URL, store the
credentials into the session store (lines 390-391) *before* the pagination
loop runs, then either store the fetched products and report success or
report the fetch error, leaving the already-written credentials in place. -/
def fetchProductsRoute (st : SessionState) (shopUrl accessToken tag : String)
    (pages : Nat → PageResp) : SessionState × RouteResult :=
  let shopUrl := trimString shopUrl
  let accessToken := trimString accessToken
  let tag := trimString tag
  if shopUrl == "" || accessToken == "" || tag == "" then
    (st, .failure "Missing required fields")
  else
    let shopUrl := cleanShopUrl shopUrl
    let st := { st with shop_url := shopUrl, access_token := accessToken }
    match fetchAll pages tag with
    | .error e => (st, .failure e)
    | .ok ps => ({ st with products := ps }, .success ps)

/-! ## Taxonomy generation step (`app.py` lines 499-692, 100-174, 988-1052) -/

/-- The parsed JSON hierarchy returned by the taxonomy-generation call:
parent category names mapped to lists of subcategory names. -/
def Hierarchy : Type := List (String × List String)

/-- Lines 653-658 / 158-162 / 1041-1045: each `(parent, subcat)` pair becomes
the flat entry `f"{parent} > {subcat}"`. -/
def flattenHierarchy (h : List (String × List String)) : List String :=
  h.flatMap (fun pc => pc.2.map (fun sub => pc.1 ++ " > " ++ sub))

/-- The fixed default taxonomy of the synchronous classify route
(`app.py` lines 679-690), used when hierarchy generation raises. -/
def defaultCollections : List String :=
  ["Traffic Cones > 460mm-500mm Cones", "Traffic Cones > 750mm Cones", "Traffic Cones > 1 Metre Cones",
   "Water Tanks > Small Tanks (100-1000L)", "Water Tanks > Medium Tanks (1000-5000L)", "Water Tanks > Large Tanks (5000L+)",
   "Water Tanks > Bunded Tanks", "Water Tanks > Underground Tanks",
   "Traffic Signs > Speed Limit Signs", "Traffic Signs > Warning Signs", "Traffic Signs > Quick-Fit Signs",
   "Traffic Signs > Metal Signs", "Traffic Signs > Supplementary Plates",
   "Safety Barriers > Water-Filled Barriers", "Safety Barriers > Pedestrian Barriers", "Safety Barriers > Temporary Fencing",
   "Safety Barriers > Height Restrictors", "Safety Barriers > Crowd Control",
   "Construction Equipment > Mortar Tubs", "Construction Equipment > Builders Buckets", "Construction Equipment > Hand Tools",
   "Safety PPE > High-Vis Clothing", "Safety PPE > Work Gloves", "Safety PPE > Safety Boots",
   "Site Equipment > Cable Ramps", "Site Equipment > Anti-Slip Matting", "Site Equipment > Ground Protection"]

/-- Result of the taxonomy-determination step of a pipeline variant: either
proceed to classification with a taxonomy, or abort the whole run. -/
inductive Step1Outcome where
  | proceed (taxonomy : List String)
  | abortError
  deriving DecidableEq, Repr

/-- Step 1 of the synchronous `/api/classify` route (`app.py` lines 499-692):
non-empty user-supplied collections are used directly; otherwise the AI
generation call runs, and *any* exception in it (timeout, parse failure,
malformed structure — `genResult = none`) falls back to the fixed default
taxonomy (lines 676-692) and classification proceeds. -/
def step1Sync (userCollections : List String) (genResult : Option (List (String × List String))) : Step1Outcome :=
  if userCollections.length > 0 then .proceed userCollections
  else
    match genResult with
    | some h => .proceed (flattenHierarchy h)
    | none => .proceed defaultCollections

/-- Step 1 of `run_classification_background` (`app.py` lines 100-174): on a
generation exception the task is marked `'error'` and the worker returns
(lines 172-174) — there is no fallback taxonomy. -/
def step1Background (userCollections : List String) (genResult : Option (List (String × List String))) : Step1Outcome :=
  if userCollections.length > 0 then .proceed userCollections
  else
    match genResult with
    | some h => .proceed (flattenHierarchy h)
    | none => .abortError

/-- Step 1 of the `/api/classify-stream` generator (`app.py` lines 988-1052):
on a generation exception an `error` event is emitted and the generator
returns (lines 1050-1052) — again no fallback. -/
def step1Stream (userCollections : List String) (genResult : Option (List (String × List String))) : Step1Outcome :=
  if userCollections.length > 0 then .proceed userCollections
  else
    match genResult with
    | some h => .proceed (flattenHierarchy h)
    | none => .abortError

/-! ## Title sampling for taxonomy generation (`app.py` lines 526-528) -/

/-- `title` of the `i`-th (0-based) product, defaulting to the empty string
out of range (all uses are in range). -/
def titleAt (products : List ShopProduct) (i : Nat) : String :=
  ((products.get? i).map ShopProduct.title).getD ""

/-- Lines 526-528 of `app.py` (identical at 120-122 and 1003-1005):
`sample_count = min(total_products, 200)` followed by
`[f"{i+1}. {products[i]['title']}" for i in range(sample_count)]` — the
numbered title lines sent to the taxonomy-generation prompt, taken from the
*first* `sample_count` products. -/
def sampleTitles (products : List ShopProduct) : List String :=
  let sampleCount := min products.length 200
  (List.range sampleCount).map (fun i => toString (i + 1) ++ ". " ++ titleAt products i)

/-- Modelled from the spec: "if the catalog is large, select an evenly spaced
subset (stride = N/sample_size) rather than the first K items". The `i`-th
sample line is drawn from product `i * stride` with `stride = N / sample_count`.
This definition follows the spec's words, for comparison with `sampleTitles`
(which is translated from the source). -/
def sampleTitlesEvenSpec (products : List ShopProduct) : List String :=
  let sampleCount := min products.length 200
  let stride := products.length / sampleCount
  (List.range sampleCount).map (fun i =>
    toString (i * stride + 1) ++ ". " ++ titleAt products (i * stride))

/-! ## Classification engine (`app.py` lines 694-889) -/

/-- `collections_dict[name].append(idx)` on the association-list model of the
insertion-ordered Python dict: append `i` to the bucket named `name`
(identity when `name` is not a key; all call sites guard for membership). -/
def addToBucket : List (String × List Nat) → String → Nat → List (String × List Nat)
  | [], _, _ => []
  | (n, l) :: rest, name, i =>
    if n = name then (n, l ++ [i]) :: rest
    else (n, l) :: addToBucket rest name i

/-- `max(collections_dict.items(), key=lambda x: len(x[1]) if x[1] else 0)`
(lines 752, 763, 783): the earliest bucket of maximal size, `none` on an
empty dict (where Python's `max` raises `ValueError`). -/
def maxBucket : List (String × List Nat) → Option (String × List Nat)
  | [] => none
  | x :: xs =>
    match maxBucket xs with
    | none => some x
    | some y => some (if y.2.length > x.2.length then y else x)

/-- One iteration of the per-product loop (lines 709-767): the classifier's
reply for index `i` is `oracle i` (`none` models an exception from the API
call). A reply naming an existing bucket is assigned there; an invalid reply
or an exception assigns `i` to the fallback `maxBucket` bucket. `none` as a
result models the `ValueError` escaping when the dict is empty. -/
def classifyStep (oracle : Nat → Option String) (d : List (String × List Nat)) (i : Nat) :
    Option (List (String × List Nat)) :=
  match oracle i with
  | some name =>
    if d.any (fun b => b.1 == name) then some (addToBucket d name i)
    else (maxBucket d).map (fun fb => addToBucket d fb.1 i)
  | none => (maxBucket d).map (fun fb => addToBucket d fb.1 i)

/-- The per-product loop `for idx in range(1, total_products + 1)` threaded
over the bucket dict; an escaping exception aborts the whole route. -/
def classifyLoop (oracle : Nat → Option String) :
    List (String × List Nat) → List Nat → Option (List (String × List Nat))
  | d, [] => some d
  | d, i :: rest =>
    match classifyStep oracle d i with
    | none => none
    | some d2 => classifyLoop oracle d2 rest

/-- The verification pass of lines 775-787: collect the indices of `1..N`
absent from every bucket and append them all to the bucket chosen by
`max(collections_dict.items(), key=lambda x: len(x[1]))` (line 783). -/
def missingPass (N : Nat) (d : List (String × List Nat)) : Option (List (String × List Nat)) :=
  let missing := (List.range' 1 N).filter (fun i => !(d.any (fun b => b.2.contains i)))
  if missing.isEmpty then some d
  else
    match maxBucket d with
    | none => none
    | some fb => some (missing.foldl (fun acc i => addToBucket acc fb.1 i) d)

/-- The inner loop of the final deduplication (lines 796-803): walk one
bucket's index list, keeping each index not yet in `seen` and recording it
into `seen`. Returns the surviving indices and the updated `seen` set. -/
def dedupOne : List Nat → List Nat → List Nat × List Nat
  | seen, [] => ([], seen)
  | seen, i :: rest =>
    if seen.contains i then dedupOne seen rest
    else
      let p := dedupOne (seen ++ [i]) rest
      (i :: p.1, p.2)

/-- The final deduplication of lines 792-808: thread `seen_products` across
the buckets in dict order, keep only first occurrences, and drop buckets left
empty (`if unique_indices`). -/
def dedupBuckets (seen : List Nat) : List (String × List Nat) → List (String × List Nat)
  | [] => []
  | (n, l) :: rest =>
    let p := dedupOne seen l
    if p.1.isEmpty then dedupBuckets p.2 rest
    else (n, p.1) :: dedupBuckets p.2 rest

/-- The classification engine of `/api/classify` (`app.py` lines 694-808),
from taxonomy to final partition: build the empty buckets
(`{name: [] for name in suggested_collections}` — the dict comprehension
keeps the first occurrence of a duplicated name), classify each index in
`1..N`, run the missing-index pass, drop empty buckets (line 790), then
deduplicate (lines 792-808). `none` models the route's error response when
Python's `max` raises on an empty dict. -/
def classifyProducts (N : Nat) (taxonomy : List String) (oracle : Nat → Option String) :
    Option (List (String × List Nat)) :=
  let d0 := taxonomy.eraseDups.map (fun n => (n, ([] : List Nat)))
  match classifyLoop oracle d0 (List.range' 1 N) with
  | none => none
  | some d1 =>
    match missingPass N d1 with
    | none => none
    | some d2 =>
      let d3 := d2.filter (fun b => !b.2.isEmpty)
      some (dedupBuckets [] d3)

/-- The response assembly of lines 810-889: `total_assigned` is the summed
bucket size, the count check of lines 830-833 only chooses between the
`SUCCESS` and `❌ ERROR: Count mismatch!` console prints (captured by
`count_mismatch_logged`), and the JSON returned to the caller (lines 884-889)
carries `"success": True` unconditionally. -/
structure ClassifyResponse where
  success : Bool
  total_collections : Nat
  total_products : Nat
  count_mismatch_logged : Bool
  deriving DecidableEq, Repr

/-- Lines 810-889 of `app.py`: build the HTTP response from the final
deduplicated partition. -/
def classifyFinalize (N : Nat) (allCollections : List (String × List Nat)) : ClassifyResponse :=
  let totalAssigned := (allCollections.map (fun b => b.2.length)).sum
  { success := true
    total_collections := allCollections.length
    total_products := totalAssigned
    count_mismatch_logged := totalAssigned != N }

/-- All product indices held by a bucket dict, in bucket-then-list order
(`all_product_ids` of lines 814-816). -/
def bucketIndices (d : List (String × List Nat)) : List Nat :=
  d.flatMap (fun b => b.2)

/-- A concrete classifier for evaluating the engine: a valid label for
index 1, an unrecognized label for index 2, and an API failure for every
other index. -/
def oracleDemo : Nat → Option String :=
  fun i => if i = 1 then some "A" else if i = 2 then some "Bogus" else none

/-! ## Sink client retry loop (`app.py` lines 1325-1432, 1434-1510) -/

/-- Outcome of one HTTP call against the collection sink, as the retry loop
discriminates it: an HTTP 429 carrying an optional parsed `Retry-After`
header, any exception (`requests.exceptions.Timeout` and the generic
`except` both take the same backoff-and-retry path), or a 2xx payload. -/
inductive CallResult (A : Type) where
  | rate429 (retryAfter : Option Nat)
  | failed
  | ok (val : A)
  deriving DecidableEq, Repr

/-- What one iteration of `create_or_get_smart_collection`'s attempt loop
sees from the sink: the search GET's result (a list of existing collections
as `(title, id)` pairs) and, when the search finds no match, the create
POST's result (the new collection's id). -/
structure SinkAttempt where
  searchResult : CallResult (List (String × Nat))
  createResult : CallResult Nat
  deriving DecidableEq, Repr

/-- `max_retries = 3` (`app.py` line 1327). -/
def sinkMaxRetries : Nat := 3

/-- The sleep performed on a 429 (lines 1340-1342, 1389-1391):
`int(response.headers.get('Retry-After', 2))` seconds, here in milliseconds. -/
def retryAfterSleepMs (ra : Option Nat) : Nat := 1000 * ra.getD 2

/-- The linear backoff sleep `time.sleep(2 * (attempt + 1))` taken on the
exception paths (lines 1411, 1423, 1429), only `if attempt < max_retries - 1`;
in milliseconds. -/
def backoffSleepMs (attempt : Nat) : Nat :=
  if attempt + 1 < sinkMaxRetries then 2000 * (attempt + 1) else 0

/-- The `for attempt in range(max_retries)` loop of
`create_or_get_smart_collection` (`app.py` lines 1332-1432). `attempts`
gives the sink's behaviour on each attempt, `attempt` is the current loop
index and `remaining` the iterations left (`sinkMaxRetries - attempt` at the
top-level call). Each attempt: search GET; on 429 sleep `Retry-After`
(default 2s) and `continue` — moving to the *next* `attempt`; on an
exception sleep the linear backoff and `continue`; on success scan the
returned collections for a case-insensitive exact title match and return its
id, else sleep 0.5s (line 1385), POST the create, and treat its 429/exception
the same way. Falling off the loop returns `None` (line 1432).
Returns the result paired with the total milliseconds slept. -/
def createOrGetGo (name : String) (attempts : Nat → SinkAttempt) :
    Nat → Nat → Option Nat × Nat
  | _, 0 => (none, 0)
  | attempt, remaining + 1 =>
    let a := attempts attempt
    match a.searchResult with
    | .rate429 ra =>
      let r := createOrGetGo name attempts (attempt + 1) remaining
      (r.1, retryAfterSleepMs ra + r.2)
    | .failed =>
      let r := createOrGetGo name attempts (attempt + 1) remaining
      (r.1, backoffSleepMs attempt + r.2)
    | .ok cols =>
      match cols.find? (fun c => lowerString c.1 == lowerString name) with
      | some c => (some c.2, 0)
      | none =>
        match a.createResult with
        | .rate429 ra =>
          let r := createOrGetGo name attempts (attempt + 1) remaining
          (r.1, 500 + retryAfterSleepMs ra + r.2)
        | .failed =>
          let r := createOrGetGo name attempts (attempt + 1) remaining
          (r.1, 500 + backoffSleepMs attempt + r.2)
        | .ok newId => (some newId, 500)

/-- `create_or_get_smart_collection` (`app.py` lines 1325-1432): the attempt
loop started at attempt 0 with the full `max_retries = 3` budget. -/
def createOrGetSmartCollection (name : String) (attempts : Nat → SinkAttempt) :
    Option Nat × Nat :=
  createOrGetGo name attempts 0 sinkMaxRetries

/-! ## Idempotent collection materialization (`app.py` lines 1335-1418,
`test.py` lines 229-256) -/

/-- The create-or-get operation on an abstract sink state (the list of
existing collections as `(title, id)` pairs), translated from the
non-failing path of `create_or_get_smart_collection` (and identically
`create_or_get_collection` in `test.py`): scan the sink's collections for
`col["title"].lower() == collection_name.lower()` and reuse the match's id;
otherwise create a collection titled `collection_name`, the sink assigning
the fresh id (modelled deterministically as the current collection count).
Returns the collection id and the sink state after the call. -/
def createOrGetPure (name : String) (sink : List (String × Nat)) :
    Nat × List (String × Nat) :=
  match sink.find? (fun c => lowerString c.1 == lowerString name) with
  | some c => (c.2, sink)
  | none =>
    let newId := sink.length
    (newId, sink ++ [(name, newId)])

/-- The per-bucket loop of the synchronization engine (`app.py` lines
321-333 / 1281-1292, `test.py` lines 302-306): call create-or-get once for
every bucket name of the partition, threading the sink state through. -/
def syncCreateCollections (names : List String) (sink : List (String × Nat)) :
    List (String × Nat) :=
  names.foldl (fun s n => (createOrGetPure n s).2) sink

/-! ## Product metadata update (`app.py` lines 1434-1510) -/

/-- A product as held by the sink platform: the fields
`update_product_metadata` reads or writes. -/
structure SinkProduct where
  id : Nat
  title : String
  tags : String
  product_type : String
  deriving DecidableEq, Repr

/-- The body of the PUT issued by `update_product_metadata`
(`app.py` lines 1470-1476). -/
structure ProductUpdatePayload where
  id : Nat
  tags : String
  product_type : String
  deriving DecidableEq, Repr

/-- Lines 1446-1476 of `app.py`: the current product data is fetched
(line 1450) but then ignored — `updated_tags = collection_name` (line 1463)
and `product_type_value = collection_name` (line 1467) depend only on the
collection name, so the payload carries the collection name as the entire
tag string and as the product type. -/
def buildUpdatePayload (productId : Nat) (collectionName : String)
    (fetched : SinkProduct) : ProductUpdatePayload :=
  { id := productId, tags := collectionName, product_type := collectionName }

/-- The sink's application of the PUT (lines 1478-1487): the product's
`tags` and `product_type` fields are replaced by the payload's values. -/
def applyProductUpdate (p : SinkProduct) (payload : ProductUpdatePayload) : SinkProduct :=
  { p with tags := payload.tags, product_type := payload.product_type }

/-- The end-to-end effect of one successful `update_product_metadata` call
on the sink's copy of the product. -/
def updateProductMetadataEffect (p : SinkProduct) (collectionName : String) : SinkProduct :=
  applyProductUpdate p (buildUpdatePayload p.id collectionName p)

/-! ## Concrete evaluation inputs used by the theorems below -/

/-- A 400-product catalog with pairwise distinct titles, used to evaluate
the sampling step on a catalog larger than the 200-title sample cap. -/
def demoCatalog : List ShopProduct :=
  (List.range 400).map (fun i => { id := i, title := toString i, tags := "sale" })

/-- An attempt on which the sink rate-limits both calls, with no
`Retry-After` header. -/
def attempt429 : SinkAttempt :=
  { searchResult := .rate429 none, createResult := .rate429 none }

/-- An attempt on which the search returns no collections and the create
succeeds with id 77. -/
def attemptCreateOk : SinkAttempt :=
  { searchResult := .ok [], createResult := .ok 77 }

/-- A sink that rate-limits the first two attempts and then succeeds. -/
def trace429Twice : Nat → SinkAttempt :=
  fun n => if n < 2 then attempt429 else attemptCreateOk

/-- A sink that rate-limits the first three attempts and then succeeds. -/
def trace429Thrice : Nat → SinkAttempt :=
  fun n => if n < 3 then attempt429 else attemptCreateOk

/-- A product source on which every request raises a network error. -/
def failingPages : Nat → PageResp := fun _ => PageResp.netFail

/-- A product source with one matching product on page 0 and an empty
page 1 (with a stale next-cursor, as Shopify sometimes sends). -/
def pagesDemo : Nat → PageResp := fun n =>
  if n = 0 then PageResp.ok [⟨1, "Cone", "sale"⟩] true else PageResp.ok [] true

/-! ## C7: tag filter exactness -/

/-- C7: a fetched product is included iff its comma-separated tag string,
each tag trimmed and lowercased, contains the filter tag as an exact token;
a substring inside a longer tag does not match ("bluegreen" vs "blue"),
while "red, Blue , green" matches "blue". -/
theorem tag_filter_exact_token :
    productMatchesTag "red, Blue , green" "blue" = true ∧
    productMatchesTag "bluegreen" "blue" = false ∧
    (∀ tags filterTag : String,
      productMatchesTag tags filterTag = true ↔
        tags ≠ "" ∧ ∃ t ∈ splitComma tags,
          lowerString (trimString t) = lowerString filterTag) ∧
    (∀ (ps : List ShopProduct) (filterTag : String) (p : ShopProduct),
      p ∈ ps.filter (fun q => productMatchesTag q.tags filterTag) ↔
        p ∈ ps ∧ productMatchesTag p.tags filterTag = true) := by
  refine ⟨by decide, by decide, ?_, ?_⟩
  · intro tags filterTag
    simp only [productMatchesTag, tagTokens, Bool.and_eq_true, bne_iff_ne, ne_eq]
    simp [List.mem_map, eq_comm]
  · intro ps filterTag p
    exact List.mem_filter

/-! ## C9: metadata update destroys existing tags -/

/-- C9 (implicit): for every product processed by synchronization,
`update_product_metadata` replaces the product's entire tag set with exactly
the collection name and overwrites `product_type` with the same name; the
payload is independent of the fetched product data, so every pre-existing
tag is destroyed, while `id` and `title` are untouched. -/
theorem update_replaces_tags_and_type (p : SinkProduct) (name : String) :
    (updateProductMetadataEffect p name).tags = name ∧
    (updateProductMetadataEffect p name).product_type = name ∧
    (updateProductMetadataEffect p name).id = p.id ∧
    (updateProductMetadataEffect p name).title = p.title ∧
    ∀ fetched : SinkProduct,
      buildUpdatePayload p.id name fetched =
        { id := p.id, tags := name, product_type := name } :=
  ⟨rfl, rfl, rfl, rfl, fun _ => rfl⟩

/-! ## C2: a post-dedup shortfall is not surfaced to the caller -/

/-- C2: evaluating the response assembly of lines 810-889 at a deduplicated
partition holding 1 of N = 2 products: the shortfall trips the
`❌ ERROR: Count mismatch!` console print (lines 830-833), yet the JSON
returned to the caller still reports `"success": True` (lines 884-889) and
merely carries the smaller count — the invariant violation is never
surfaced as a failure of the operation. -/
theorem count_mismatch_not_surfaced :
    classifyFinalize 2 [("A", [1])] =
      { success := true, total_collections := 1, total_products := 1,
        count_mismatch_logged := true } := by
  decide

/-! ## C5: taxonomy-generation failure — fallback vs abort -/

/-- C5 counterexample: with no user-supplied collections and a failing
generation call, the background-thread variant marks the task `'error'` and
returns (`app.py` lines 172-174) — it does not proceed with the default
taxonomy — and the streaming variant does the same (lines 1050-1052). -/
theorem generation_failure_aborts_background :
    step1Background [] none = Step1Outcome.abortError ∧
    step1Background [] none ≠ Step1Outcome.proceed defaultCollections ∧
    step1Stream [] none = Step1Outcome.abortError := by
  decide

/-- C5 amended: only the synchronous `/api/classify` route falls back to the
fixed default taxonomy on a taxonomy-generation failure and always proceeds
to classification; the background-thread and streaming variants abort the
run with an error on generation failure instead of falling back. -/
theorem generation_failure_fallback_by_variant :
    (∀ (ucols : List String) (gen : Option (List (String × List String))),
      ∃ t, step1Sync ucols gen = Step1Outcome.proceed t) ∧
    step1Sync [] none = Step1Outcome.proceed defaultCollections ∧
    (∀ h, step1Sync [] (some h) = Step1Outcome.proceed (flattenHierarchy h)) ∧
    step1Background [] none = Step1Outcome.abortError ∧
    step1Stream [] none = Step1Outcome.abortError := by
  refine ⟨?_, rfl, fun h => rfl, rfl, rfl⟩
  intro ucols gen
  by_cases hu : ucols.length > 0
  · exact ⟨ucols, by simp [step1Sync, hu]⟩
  · cases gen with
    | some h => exact ⟨flattenHierarchy h, by simp [step1Sync, hu]⟩
    | none => exact ⟨defaultCollections, by simp [step1Sync, hu]⟩

/-! ## C4: the taxonomy-generation sample is the first K titles -/

/-- C4 counterexample: on a 400-product catalog the titles sent to the
taxonomy-generation prompt are exactly the first 200 products' titles
(`for i in range(sample_count)`, `app.py` lines 526-528), which differs from
the evenly spaced (stride = N/sample_size) subset the claim describes —
already at the second line ("2. 1" versus the stride-2 "3. 2"). -/
theorem sample_is_first_k_not_evenly_spaced :
    sampleTitles demoCatalog ≠ sampleTitlesEvenSpec demoCatalog ∧
    sampleTitles demoCatalog =
      (List.range 200).map (fun i => toString (i + 1) ++ ". " ++ toString i) := by
  decide

/-- C4 amended: when taxonomy generation is invoked and the catalog is
larger than the sample cap, the sample of product titles sent to the
classifier consists of the first `min(N, 200)` products, numbered in
catalog order — not an evenly spaced subset. -/
theorem sample_takes_first_products (ps : List ShopProduct) :
    (sampleTitles ps).length = min ps.length 200 ∧
    ∀ i, i < min ps.length 200 →
      (sampleTitles ps).get? i = some (toString (i + 1) ++ ". " ++ titleAt ps i) := by
  constructor
  · simp [sampleTitles]
  · intro i hi
    rw [show sampleTitles ps =
          (List.range (min ps.length 200)).map
            (fun i => toString (i + 1) ++ ". " ++ titleAt ps i) from rfl,
        List.get?_map, List.get?_range hi]
    rfl

/-- Witness for `sample_takes_first_products` at the concrete 400-product
catalog and sample position 0. -/
theorem sample_takes_first_products_witness :
    (sampleTitles demoCatalog).length = min demoCatalog.length 200 ∧
    (sampleTitles demoCatalog).get? 0 =
      some (toString (0 + 1) ++ ". " ++ titleAt demoCatalog 0) :=
  ⟨(sample_takes_first_products demoCatalog).1,
   (sample_takes_first_products demoCatalog).2 0 (by decide)⟩

/-! ## C3: 429 handling consumes the shared retry budget -/

/-- C3 counterexample: against a sink whose only failures are HTTP 429s,
two rate-limited attempts still leave room to succeed, but a third 429
exhausts `max_retries = 3` and `create_or_get_smart_collection` returns
`None` even though the sink would have succeeded on the next attempt — each
429 `continue` (`app.py` lines 1339-1343, 1388-1392) advances the
`for attempt in range(max_retries)` loop, so 429 retries consume the same
bounded retry budget as timeouts and network errors, contradicting the
claim that they are budget-exempt. -/
theorem rate_limit_429_consumes_budget :
    (createOrGetSmartCollection "Shoes" trace429Twice).1 = some 77 ∧
    (createOrGetSmartCollection "Shoes" trace429Thrice).1 = none := by
  decide

/-- C3 amended: on an HTTP 429 the client sleeps for the `Retry-After`
duration (2 seconds when the header is absent) and retries the operation
from its first step, but the 429 consumes one of the `max_retries = 3`
attempts shared with the other failure classes: after a 429 on the first
attempt the remaining run has only 2 attempts left. -/
theorem rate_limit_429_retry_behaviour (name : String) (attempts : Nat → SinkAttempt)
    (ra : Option Nat) (h : (attempts 0).searchResult = .rate429 ra) :
    createOrGetSmartCollection name attempts =
      ((createOrGetGo name attempts 1 2).1,
        retryAfterSleepMs ra + (createOrGetGo name attempts 1 2).2) ∧
    retryAfterSleepMs none = 2000 := by
  refine ⟨?_, rfl⟩
  show createOrGetGo name attempts 0 3 = _
  rw [createOrGetGo, h]

/-- Witness for `rate_limit_429_retry_behaviour` at the concrete
twice-rate-limited sink. -/
theorem rate_limit_429_retry_behaviour_witness :
    createOrGetSmartCollection "Shoes" trace429Twice =
      ((createOrGetGo "Shoes" trace429Twice 1 2).1,
        retryAfterSleepMs none + (createOrGetGo "Shoes" trace429Twice 1 2).2) ∧
    retryAfterSleepMs none = 2000 :=
  rate_limit_429_retry_behaviour "Shoes" trace429Twice none (by decide)

/-! ## C6: synchronization is idempotent by collection name -/

theorem find?_append_of_none {A : Type} (p : A → Bool) (l1 l2 : List A)
    (h : l1.find? p = none) : (l1 ++ l2).find? p = l2.find? p := by
  induction l1 with
  | nil => rfl
  | cons a t ih =>
    simp only [List.cons_append, List.find?_cons] at h ⊢
    cases hpa : p a
    · simp only [hpa] at h ⊢
      exact ih h
    · simp [hpa] at h

theorem find?_append_of_some {A : Type} (p : A → Bool) (l1 l2 : List A) (c : A)
    (h : l1.find? p = some c) : (l1 ++ l2).find? p = some c := by
  induction l1 with
  | nil => simp at h
  | cons a t ih =>
    simp only [List.cons_append, List.find?_cons] at h ⊢
    cases hpa : p a
    · simp only [hpa] at h ⊢
      exact ih h
    · simp only [hpa] at h ⊢
      exact h

/-- After a create-or-get call for `name`, the sink state holds a
case-insensitive title match for `name` (either it already did, or the
freshly created collection is titled `name`). -/
theorem createOrGetPure_matched (name : String) (sink : List (String × Nat)) :
    ((createOrGetPure name sink).2.find?
      (fun c => lowerString c.1 == lowerString name)).isSome = true := by
  rcases hf : sink.find? (fun c => lowerString c.1 == lowerString name) with _ | c
  · simp [createOrGetPure, hf, find?_append_of_none _ _ _ hf, List.find?_cons]
  · simp [createOrGetPure, hf]

/-- A sink call for `name` finding a match reuses it and leaves the sink
state unchanged. -/
theorem createOrGetPure_of_found (name : String) (sink : List (String × Nat))
    (c : String × Nat)
    (h : sink.find? (fun c => lowerString c.1 == lowerString name) = some c) :
    createOrGetPure name sink = (c.2, sink) := by
  simp [createOrGetPure, h]

/-- Create-or-get calls only append, so an existing title match survives any
later call. -/
theorem createOrGetPure_keeps_match (name n2 : String) (sink : List (String × Nat))
    (h : (sink.find? (fun c => lowerString c.1 == lowerString name)).isSome = true) :
    ((createOrGetPure n2 sink).2.find?
      (fun c => lowerString c.1 == lowerString name)).isSome = true := by
  rcases hf : sink.find? (fun c => lowerString c.1 == lowerString n2) with _ | c
  · rcases Option.isSome_iff_exists.mp h with ⟨c0, hc0⟩
    simp [createOrGetPure, hf, find?_append_of_some _ _ _ _ hc0]
  · simpa [createOrGetPure, hf] using h

theorem syncCreate_keeps_match (names : List String) (name : String)
    (sink : List (String × Nat))
    (h : (sink.find? (fun c => lowerString c.1 == lowerString name)).isSome = true) :
    ((syncCreateCollections names sink).find?
      (fun c => lowerString c.1 == lowerString name)).isSome = true := by
  induction names generalizing sink with
  | nil => exact h
  | cons m rest ih => exact ih _ (createOrGetPure_keeps_match name m sink h)

/-- After one full synchronization pass, the sink holds a title match for
every bucket name of the partition. -/
theorem syncCreate_all_matched (names : List String) (sink : List (String × Nat)) :
    ∀ n ∈ names,
      ((syncCreateCollections names sink).find?
        (fun c => lowerString c.1 == lowerString n)).isSome = true := by
  induction names generalizing sink with
  | nil => intro n hn; cases hn
  | cons m rest ih =>
    intro n hn
    show ((syncCreateCollections rest (createOrGetPure m sink).2).find? _).isSome = true
    rcases List.mem_cons.mp hn with rfl | hn
    · exact syncCreate_keeps_match rest n _ (createOrGetPure_matched n sink)
    · exact ih _ n hn

/-- A synchronization pass over names that all already have a title match
leaves the sink unchanged: every "create" becomes "find existing, reuse". -/
theorem syncCreate_of_all_matched (names : List String) (sink : List (String × Nat))
    (h : ∀ n ∈ names,
      (sink.find? (fun c => lowerString c.1 == lowerString n)).isSome = true) :
    syncCreateCollections names sink = sink := by
  induction names with
  | nil => rfl
  | cons m rest ih =>
    show syncCreateCollections rest (createOrGetPure m sink).2 = sink
    rcases Option.isSome_iff_exists.mp (h m (List.mem_cons_self m rest)) with ⟨c, hc⟩
    have h2 : (createOrGetPure m sink).2 = sink := by
      rw [createOrGetPure_of_found m sink c hc]
    rw [h2]
    exact ih (fun n hn => h n (List.mem_cons_of_mem m hn))

/-- C6: synchronization is idempotent by collection name. A second
create-or-get for the same name against the state left by the first finds
the (possibly just-created) case-insensitive title match, returns the same
collection id and creates nothing; consequently a second full sync pass over
the same partition leaves the sink's collection set exactly as the first
pass left it — no duplicate collections. -/
theorem sync_idempotent_by_name :
    (∀ (name : String) (sink : List (String × Nat)),
      createOrGetPure name (createOrGetPure name sink).2 =
        ((createOrGetPure name sink).1, (createOrGetPure name sink).2)) ∧
    (∀ (names : List String) (sink : List (String × Nat)),
      syncCreateCollections names (syncCreateCollections names sink) =
        syncCreateCollections names sink) := by
  constructor
  · intro name sink
    rcases hf : sink.find? (fun c => lowerString c.1 == lowerString name) with _ | c
    · have hfind : ((sink ++ [(name, sink.length)]).find?
          (fun c => lowerString c.1 == lowerString name)) = some (name, sink.length) := by
        rw [find?_append_of_none _ _ _ hf]
        simp [List.find?_cons]
      simp [createOrGetPure, hf, hfind]
    · simp [createOrGetPure, hf]
  · intro names sink
    exact syncCreate_of_all_matched names _ (syncCreate_all_matched names sink)

/-! ## C10: credentials are stored before the fetch can fail -/

/-- C10 (implicit): once the field validation passes, the fetch route writes
the cleaned shop URL and the access token into the session store before any
page request is issued, so the stored credentials are overwritten no matter
what the network does — the credential part of the resulting session state
is the same for every page oracle, including ones that only fail. -/
theorem credentials_written_before_fetch (st : SessionState)
    (shopUrl accessToken tag : String) (pages : Nat → PageResp)
    (hs : trimString shopUrl ≠ "") (ha : trimString accessToken ≠ "")
    (ht : trimString tag ≠ "") :
    (fetchProductsRoute st shopUrl accessToken tag pages).1.shop_url =
      cleanShopUrl (trimString shopUrl) ∧
    (fetchProductsRoute st shopUrl accessToken tag pages).1.access_token =
      trimString accessToken ∧
    ∀ pages2 : Nat → PageResp,
      (fetchProductsRoute st shopUrl accessToken tag pages).1.shop_url =
        (fetchProductsRoute st shopUrl accessToken tag pages2).1.shop_url ∧
      (fetchProductsRoute st shopUrl accessToken tag pages).1.access_token =
        (fetchProductsRoute st shopUrl accessToken tag pages2).1.access_token := by
  have key : ∀ pg : Nat → PageResp,
      (fetchProductsRoute st shopUrl accessToken tag pg).1.shop_url =
        cleanShopUrl (trimString shopUrl) ∧
      (fetchProductsRoute st shopUrl accessToken tag pg).1.access_token =
        trimString accessToken := by
    intro pg
    have hcond : (trimString shopUrl == "" || trimString accessToken == ""
        || trimString tag == "") = false := by
      simp [hs, ha, ht]
    simp only [fetchProductsRoute, hcond, Bool.false_eq_true, if_false]
    cases h : fetchAll pg (trimString tag) <;> simp [h]
  exact ⟨(key pages).1, (key pages).2, fun pages2 =>
    ⟨(key pages).1.trans (key pages2).1.symm,
     (key pages).2.trans (key pages2).2.symm⟩⟩

/-- Witness for `credentials_written_before_fetch`: a concrete session whose
stored credentials are overwritten even though every page request of the
subsequent fetch fails. -/
theorem credentials_written_before_fetch_witness :
    (fetchProductsRoute ⟨"old-shop", "old-token", []⟩
        "https://new-shop.myshopify.com/" "tok123" "sale" failingPages).1.shop_url =
      cleanShopUrl (trimString "https://new-shop.myshopify.com/") ∧
    (fetchProductsRoute ⟨"old-shop", "old-token", []⟩
        "https://new-shop.myshopify.com/" "tok123" "sale" failingPages).1.access_token =
      trimString "tok123" ∧
    ∀ pages2 : Nat → PageResp,
      (fetchProductsRoute ⟨"old-shop", "old-token", []⟩
          "https://new-shop.myshopify.com/" "tok123" "sale" failingPages).1.shop_url =
        (fetchProductsRoute ⟨"old-shop", "old-token", []⟩
            "https://new-shop.myshopify.com/" "tok123" "sale" pages2).1.shop_url ∧
      (fetchProductsRoute ⟨"old-shop", "old-token", []⟩
          "https://new-shop.myshopify.com/" "tok123" "sale" failingPages).1.access_token =
        (fetchProductsRoute ⟨"old-shop", "old-token", []⟩
            "https://new-shop.myshopify.com/" "tok123" "sale" pages2).1.access_token :=
  credentials_written_before_fetch ⟨"old-shop", "old-token", []⟩
    "https://new-shop.myshopify.com/" "tok123" "sale" failingPages
    (by decide) (by decide) (by decide)

/-! ## C8: pagination termination, stop conditions, and the page cap -/

theorem concatFrom_zero (pages : Nat → PageResp) (filterTag : String) (s : Nat) :
    concatFrom pages filterTag s 0 = [] := rfl

theorem concatFrom_succ_left (pages : Nat → PageResp) (filterTag : String) (s k : Nat) :
    concatFrom pages filterTag s (k + 1) =
      pageFiltered (pages s) filterTag ++ concatFrom pages filterTag (s + 1) k := by
  unfold concatFrom
  rw [List.range'_succ s k 1, List.flatMap_cons]

theorem concatFrom_concat (pages : Nat → PageResp) (filterTag : String) (s k : Nat) :
    concatFrom pages filterTag s (k + 1) =
      concatFrom pages filterTag s k ++ pageFiltered (pages (s + k)) filterTag := by
  unfold concatFrom
  have hr : List.range' s (k + 1) = List.range' s k ++ [s + k] := by
    simpa using @List.range'_concat 1 s k
  rw [hr, List.flatMap_append, List.flatMap_cons]
  simp

/-- Peeling `k` continuing pages off the front of the pagination loop: if the
first `k` pages starting at `s` all continue (non-empty with a next cursor),
the loop's result is their filtered concatenation prepended to whatever the
loop does from page `s + k` with `k` fewer iterations of budget. -/
theorem fetchGo_consume (pages : Nat → PageResp) (filterTag : String) :
    ∀ (k s fuel : Nat), k ≤ fuel →
      (∀ i, i < k → continuingPage (pages (s + i)) = true) →
      fetchGo pages filterTag fuel s =
        (fetchGo pages filterTag (fuel - k) (s + k)).map
          (fun rest => concatFrom pages filterTag s k ++ rest) := by
  intro k
  induction k with
  | zero =>
    intro s fuel _ _
    simp only [Nat.sub_zero, Nat.add_zero]
    cases fetchGo pages filterTag fuel s <;> rfl
  | succ k ih =>
    intro s fuel hk hgood
    obtain ⟨f, rfl⟩ : ∃ f, fuel = f + 1 := ⟨fuel - 1, by omega⟩
    have h0 := hgood 0 (Nat.succ_pos k)
    rw [Nat.add_zero] at h0
    cases hps : pages s with
    | httpError st => rw [hps] at h0; simp [continuingPage] at h0
    | netFail => rw [hps] at h0; simp [continuingPage] at h0
    | ok items hasNext =>
      rw [hps] at h0
      simp only [continuingPage, Bool.and_eq_true, Bool.not_eq_true'] at h0
      have step : fetchGo pages filterTag (f + 1) s =
          (fetchGo pages filterTag f (s + 1)).map
            (fun rest => pageFiltered (pages s) filterTag ++ rest) := by
        simp only [fetchGo, hps, h0.1, h0.2, Bool.false_eq_true, if_false, if_true]
        simp [pageFiltered, hps]
      rw [step, ih (s + 1) f (by omega)
        (fun i hi => by
          have := hgood (i + 1) (by omega)
          rwa [show s + (i + 1) = s + 1 + i by omega] at this)]
      rw [show f + 1 - (k + 1) = f - k by omega, show s + (k + 1) = s + 1 + k by omega]
      cases hrest : fetchGo pages filterTag (f - k) (s + 1 + k) with
      | error e => rfl
      | ok v =>
        show Except.ok (pageFiltered (pages s) filterTag ++
            (concatFrom pages filterTag (s + 1) k ++ v)) =
          Except.ok (concatFrom pages filterTag s (k + 1) ++ v)
        rw [concatFrom_succ_left, List.append_assoc]

/-- C8: `fetch_products` pages through the source and stops at the first of
(a) the hard cap of `max_pages = 100` pages, (b) a page returning zero
items, (c) a page whose `Link` header carries no `rel="next"` cursor; in
every case the result is a success (hitting the cap is not an error) holding
the tag-filtered items gathered so far, concatenated in source page order.
`k` counts the leading pages on which the loop continues. -/
theorem fetch_pagination (pages : Nat → PageResp) (filterTag : String) (k : Nat)
    (hk : k ≤ maxPages)
    (hgood : ∀ i, i < k → continuingPage (pages i) = true) :
    (k = maxPages →
      fetchAll pages filterTag = .ok (concatFrom pages filterTag 0 maxPages)) ∧
    (∀ items hasNext, k < maxPages → pages k = .ok items hasNext → items = [] →
      fetchAll pages filterTag = .ok (concatFrom pages filterTag 0 k)) ∧
    (∀ items, k < maxPages → pages k = .ok items false → items ≠ [] →
      fetchAll pages filterTag = .ok (concatFrom pages filterTag 0 (k + 1))) := by
  have hgood0 : ∀ i, i < k → continuingPage (pages (0 + i)) = true := by
    intro i hi
    rw [Nat.zero_add]
    exact hgood i hi
  have base := fetchGo_consume pages filterTag k 0 maxPages hk hgood0
  rw [Nat.zero_add] at base
  refine ⟨?_, ?_, ?_⟩
  · intro hcap
    subst hcap
    rw [fetchAll, base, show maxPages - maxPages = 0 from Nat.sub_self maxPages]
    show Except.ok (concatFrom pages filterTag 0 maxPages ++ []) = _
    rw [List.append_nil]
  · intro items hasNext hlt hpk hempty
    obtain ⟨m, hm⟩ : ∃ m, maxPages - k = m + 1 := ⟨maxPages - k - 1, by omega⟩
    rw [fetchAll, base, hm]
    subst hempty
    simp only [fetchGo, hpk, List.isEmpty_nil, if_true]
    show Except.ok (concatFrom pages filterTag 0 k ++ []) = _
    rw [List.append_nil]
  · intro items hlt hpk hne
    obtain ⟨m, hm⟩ : ∃ m, maxPages - k = m + 1 := ⟨maxPages - k - 1, by omega⟩
    rw [fetchAll, base, hm]
    have hie : items.isEmpty = false := by
      cases items with
      | nil => exact absurd rfl hne
      | cons a l => rfl
    simp only [fetchGo, hpk, hie, Bool.false_eq_true, if_false]
    show Except.ok (concatFrom pages filterTag 0 k ++
        items.filter (fun p => productMatchesTag p.tags filterTag)) = _
    rw [concatFrom_concat]
    rw [show pageFiltered (pages (0 + k)) filterTag =
        items.filter (fun p => productMatchesTag p.tags filterTag) by
      rw [Nat.zero_add, hpk]; rfl]

/-- Witness for `fetch_pagination`: one continuing page followed by an empty
page stops the loop with a success. -/
theorem fetch_pagination_witness :
    fetchAll pagesDemo "sale" = .ok (concatFrom pagesDemo "sale" 0 1) :=
  (fetch_pagination pagesDemo "sale" 1 (by decide)
      (by
        intro i hi
        have h0 : i = 0 := Nat.lt_one_iff.mp hi
        subst h0
        decide)).2.1
    [] true (by decide) (by decide) rfl

/-! ## C1: the returned partition is complete, disjoint, and empty-free -/

theorem addToBucket_mem (d : List (String × List Nat)) (name : String) (i : Nat)
    (hkey : d.any (fun b => b.1 == name) = true) (j : Nat) :
    j ∈ bucketIndices (addToBucket d name i) ↔ j = i ∨ j ∈ bucketIndices d := by
  induction d with
  | nil => simp at hkey
  | cons b rest ih =>
    obtain ⟨n, l⟩ := b
    simp only [List.any_cons, Bool.or_eq_true] at hkey
    by_cases hn : n = name
    · subst hn
      rw [show addToBucket ((n, l) :: rest) n i = (n, l ++ [i]) :: rest from by
        simp [addToBucket]]
      simp only [bucketIndices, List.flatMap_cons, List.mem_append, List.mem_cons]
      tauto
    · have hkey2 : rest.any (fun b => b.1 == name) = true := by
        rcases hkey with hk | hk
        · exact absurd (by simpa using hk) hn
        · exact hk
      simp only [addToBucket, if_neg hn, bucketIndices, List.flatMap_cons, List.mem_append]
      have ihr := ih hkey2
      rw [show (addToBucket rest name i).flatMap (fun b => b.2) =
            bucketIndices (addToBucket rest name i) from rfl,
          show rest.flatMap (fun b => b.2) = bucketIndices rest from rfl] at *
      rw [ihr]
      tauto

theorem addToBucket_any_key (d : List (String × List Nat)) (name : String) (i : Nat)
    (x : String) :
    (addToBucket d name i).any (fun b => b.1 == x) = d.any (fun b => b.1 == x) := by
  induction d with
  | nil => rfl
  | cons b rest ih =>
    obtain ⟨n, l⟩ := b
    by_cases hn : n = name
    · subst hn
      simp [addToBucket, List.any_cons]
    · simp [addToBucket, if_neg hn, List.any_cons, ih]

theorem maxBucket_mem (d : List (String × List Nat)) (b : String × List Nat)
    (h : maxBucket d = some b) : b ∈ d := by
  induction d generalizing b with
  | nil => simp [maxBucket] at h
  | cons x xs ih =>
    rw [maxBucket] at h
    cases hm : maxBucket xs with
    | none =>
      rw [hm] at h
      obtain rfl := Option.some.inj h
      exact List.mem_cons_self x xs
    | some y =>
      rw [hm] at h
      obtain rfl := Option.some.inj h
      by_cases hlen : y.2.length > x.2.length
      · rw [if_pos hlen]
        exact List.mem_cons_of_mem x (ih y hm)
      · rw [if_neg hlen]
        exact List.mem_cons_self x xs

theorem mem_key_any (d : List (String × List Nat)) (b : String × List Nat)
    (h : b ∈ d) : d.any (fun c => c.1 == b.1) = true := by
  rw [List.any_eq_true]
  exact ⟨b, h, by simp⟩

theorem classifyStep_valid (oracle : Nat → Option String) (d : List (String × List Nat))
    (i : Nat) (name : String) (ho : oracle i = some name)
    (hany : d.any (fun b => b.1 == name) = true) :
    classifyStep oracle d i = some (addToBucket d name i) := by
  unfold classifyStep
  rw [ho]
  simp [hany]

theorem classifyStep_fallback_of_invalid (oracle : Nat → Option String)
    (d : List (String × List Nat)) (i : Nat) (name : String)
    (ho : oracle i = some name)
    (hany : d.any (fun b => b.1 == name) = false) :
    classifyStep oracle d i = (maxBucket d).map (fun fb => addToBucket d fb.1 i) := by
  unfold classifyStep
  rw [ho]
  simp [hany]

theorem classifyStep_fallback_of_none (oracle : Nat → Option String)
    (d : List (String × List Nat)) (i : Nat) (ho : oracle i = none) :
    classifyStep oracle d i = (maxBucket d).map (fun fb => addToBucket d fb.1 i) := by
  unfold classifyStep
  rw [ho]

theorem classifyStep_mem (oracle : Nat → Option String) (d : List (String × List Nat))
    (i : Nat) (d2 : List (String × List Nat))
    (h : classifyStep oracle d i = some d2) (j : Nat) :
    j ∈ bucketIndices d2 ↔ j = i ∨ j ∈ bucketIndices d := by
  cases ho : oracle i with
  | some name =>
    cases hany : d.any (fun b => b.1 == name) with
    | true =>
      rw [classifyStep_valid oracle d i name ho hany] at h
      obtain rfl := Option.some.inj h
      exact addToBucket_mem d name i hany j
    | false =>
      rw [classifyStep_fallback_of_invalid oracle d i name ho hany] at h
      rcases Option.map_eq_some'.mp h with ⟨fb, hfb, rfl⟩
      exact addToBucket_mem d fb.1 i (mem_key_any d fb (maxBucket_mem d fb hfb)) j
  | none =>
    rw [classifyStep_fallback_of_none oracle d i ho] at h
    rcases Option.map_eq_some'.mp h with ⟨fb, hfb, rfl⟩
    exact addToBucket_mem d fb.1 i (mem_key_any d fb (maxBucket_mem d fb hfb)) j

theorem classifyLoop_mem (oracle : Nat → Option String) (is : List Nat) :
    ∀ (d d2 : List (String × List Nat)), classifyLoop oracle d is = some d2 →
      ∀ j, j ∈ bucketIndices d2 ↔ j ∈ is ∨ j ∈ bucketIndices d := by
  induction is with
  | nil =>
    intro d d2 h j
    obtain rfl := Option.some.inj h
    simp
  | cons i rest ih =>
    intro d d2 h j
    unfold classifyLoop at h
    cases hs : classifyStep oracle d i with
    | none => rw [hs] at h; cases h
    | some dm =>
      rw [hs] at h
      rw [ih dm d2 h j, classifyStep_mem oracle d i dm hs j, List.mem_cons]
      tauto

theorem any_contains_iff (d : List (String × List Nat)) (i : Nat) :
    d.any (fun b => b.2.contains i) = true ↔ i ∈ bucketIndices d := by
  simp [bucketIndices, List.mem_flatMap, List.any_eq_true]

theorem foldl_addToBucket_mem (name : String) (ms : List Nat) :
    ∀ (d : List (String × List Nat)),
      d.any (fun b => b.1 == name) = true → ∀ j,
      (j ∈ bucketIndices (ms.foldl (fun acc i => addToBucket acc name i) d) ↔
        j ∈ ms ∨ j ∈ bucketIndices d) := by
  induction ms with
  | nil => intro d _ j; simp
  | cons m rest ih =>
    intro d hkey j
    rw [List.foldl_cons,
      ih (addToBucket d name m) (by rw [addToBucket_any_key]; exact hkey) j,
      addToBucket_mem d name m hkey j, List.mem_cons]
    tauto

theorem missingPass_mem (N : Nat) (d d2 : List (String × List Nat))
    (h : missingPass N d = some d2) (j : Nat) :
    j ∈ bucketIndices d2 ↔ j ∈ List.range' 1 N ∨ j ∈ bucketIndices d := by
  unfold missingPass at h
  by_cases hempty :
      ((List.range' 1 N).filter (fun i => !(d.any (fun b => b.2.contains i)))).isEmpty = true
  · rw [if_pos hempty] at h
    obtain rfl := Option.some.inj h
    have hall : ∀ i ∈ List.range' 1 N, i ∈ bucketIndices d := by
      intro i hi
      rw [List.isEmpty_iff, List.filter_eq_nil_iff] at hempty
      have := hempty i hi
      rw [← any_contains_iff]
      simpa using this
    constructor
    · exact fun hj => Or.inr hj
    · rintro (hj | hj)
      · exact hall j hj
      · exact hj
  · rw [if_neg hempty] at h
    cases hmb : maxBucket d with
    | none => rw [hmb] at h; cases h
    | some fb =>
      rw [hmb] at h
      obtain rfl := Option.some.inj h
      rw [foldl_addToBucket_mem fb.1 _ d
        (mem_key_any d fb (maxBucket_mem d fb hmb)) j]
      constructor
      · rintro (hm | hd)
        · exact Or.inl (List.mem_filter.mp hm).1
        · exact Or.inr hd
      · rintro (hr | hd)
        · by_cases hjd : j ∈ bucketIndices d
          · exact Or.inr hjd
          · refine Or.inl (List.mem_filter.mpr ⟨hr, ?_⟩)
            rw [← any_contains_iff] at hjd
            simpa using hjd
        · exact Or.inr hd

theorem bucketIndices_filter_nonempty (d : List (String × List Nat)) :
    bucketIndices (d.filter (fun b => !b.2.isEmpty)) = bucketIndices d := by
  induction d with
  | nil => rfl
  | cons b rest ih =>
    obtain ⟨n, l⟩ := b
    rw [List.filter_cons]
    cases l with
    | nil =>
      rw [if_neg (by simp)]
      rw [ih]
      simp [bucketIndices, List.flatMap_cons]
    | cons a t =>
      rw [if_pos (by simp)]
      simp only [bucketIndices, List.flatMap_cons]
      rw [show (List.filter (fun b => !b.2.isEmpty) rest).flatMap (fun b => b.2) =
            bucketIndices (List.filter (fun b => !b.2.isEmpty) rest) from rfl, ih]
      rfl

theorem dedupOne_spec (l : List Nat) : ∀ (seen : List Nat),
    (dedupOne seen l).2 = seen ++ (dedupOne seen l).1 ∧
    (dedupOne seen l).1.Nodup ∧
    (∀ j, j ∈ (dedupOne seen l).1 ↔ j ∈ l ∧ j ∉ seen) := by
  induction l with
  | nil =>
    intro seen
    refine ⟨by simp [dedupOne], by simp [dedupOne], fun j => by simp [dedupOne]⟩
  | cons i rest ih =>
    intro seen
    by_cases hi : i ∈ seen
    · have hc : seen.contains i = true := by simpa using hi
      rw [show dedupOne seen (i :: rest) = dedupOne seen rest from by
        rw [dedupOne, if_pos hc]]
      obtain ⟨h1, h2, h3⟩ := ih seen
      refine ⟨h1, h2, fun j => ?_⟩
      rw [h3 j, List.mem_cons]
      constructor
      · rintro ⟨hj, hns⟩
        exact ⟨Or.inr hj, hns⟩
      · rintro ⟨rfl | hj, hns⟩
        · exact absurd hi hns
        · exact ⟨hj, hns⟩
    · have hc : seen.contains i = false := by simpa using hi
      rw [show dedupOne seen (i :: rest) =
          (i :: (dedupOne (seen ++ [i]) rest).1, (dedupOne (seen ++ [i]) rest).2) from by
        rw [dedupOne, if_neg (by simpa using hi)]]
      obtain ⟨h1, h2, h3⟩ := ih (seen ++ [i])
      refine ⟨?_, ?_, fun j => ?_⟩
      · rw [h1]
        simp
      · rw [List.nodup_cons]
        refine ⟨fun hiu => ?_, h2⟩
        have := (h3 i).mp hiu
        exact this.2 (by simp)
      · rw [List.mem_cons, h3 j, List.mem_cons]
        constructor
        · rintro (rfl | ⟨hj, hns⟩)
          · exact ⟨Or.inl rfl, hi⟩
          · exact ⟨Or.inr hj, fun hjs => hns (by simp [hjs])⟩
        · rintro ⟨rfl | hj, hns⟩
          · exact Or.inl rfl
          · by_cases hji : j = i
            · exact Or.inl hji
            · refine Or.inr ⟨hj, fun hjsi => ?_⟩
              rcases List.mem_append.mp hjsi with hjs | hjs
              · exact hns hjs
              · exact hji (by simpa using hjs)

theorem dedupBuckets_spec (d : List (String × List Nat)) : ∀ (seen : List Nat),
    (∀ b ∈ dedupBuckets seen d, b.2 ≠ [] ∧ b.2.Nodup ∧ ∀ j ∈ b.2, j ∉ seen) ∧
    (dedupBuckets seen d).Pairwise (fun b1 b2 => ∀ j, j ∈ b1.2 → j ∉ b2.2) ∧
    (∀ j, j ∈ bucketIndices (dedupBuckets seen d) ↔ j ∈ bucketIndices d ∧ j ∉ seen) := by
  induction d with
  | nil =>
    intro seen
    refine ⟨by simp [dedupBuckets], by simp [dedupBuckets], fun j => by
      simp [dedupBuckets, bucketIndices]⟩
  | cons b rest ih =>
    intro seen
    obtain ⟨n, l⟩ := b
    obtain ⟨hseen, hnodup, hmem⟩ := dedupOne_spec l seen
    by_cases hu : (dedupOne seen l).1.isEmpty = true
    · have hunil : (dedupOne seen l).1 = [] := by simpa [List.isEmpty_iff] using hu
      have hseen2 : (dedupOne seen l).2 = seen := by
        rw [hseen, hunil, List.append_nil]
      rw [show dedupBuckets seen ((n, l) :: rest) = dedupBuckets seen rest from by
        rw [show dedupBuckets seen ((n, l) :: rest) =
            dedupBuckets (dedupOne seen l).2 rest from by
          simp [dedupBuckets, hu], hseen2]]
      obtain ⟨ih1, ih2, ih3⟩ := ih seen
      refine ⟨ih1, ih2, fun j => ?_⟩
      rw [ih3 j]
      simp only [bucketIndices, List.flatMap_cons, List.mem_append]
      constructor
      · rintro ⟨hj, hns⟩
        exact ⟨Or.inr hj, hns⟩
      · rintro ⟨hj | hj, hns⟩
        · exfalso
          have : j ∈ (dedupOne seen l).1 := (hmem j).mpr ⟨hj, hns⟩
          rw [hunil] at this
          cases this
        · exact ⟨hj, hns⟩
    · rw [show dedupBuckets seen ((n, l) :: rest) =
          (n, (dedupOne seen l).1) :: dedupBuckets (dedupOne seen l).2 rest from by
        simp [dedupBuckets, hu]]
      rw [hseen]
      obtain ⟨ih1, ih2, ih3⟩ := ih (seen ++ (dedupOne seen l).1)
      refine ⟨?_, ?_, fun j => ?_⟩
      · intro b hb
        rcases List.mem_cons.mp hb with rfl | hb
        · exact ⟨by simpa [List.isEmpty_iff] using hu, hnodup,
            fun j hj => ((hmem j).mp hj).2⟩
        · obtain ⟨hb1, hb2, hb3⟩ := ih1 b hb
          exact ⟨hb1, hb2, fun j hj hjs => hb3 j hj (List.mem_append.mpr (Or.inl hjs))⟩
      · rw [List.pairwise_cons]
        refine ⟨fun b hb j hj hjb => ?_, ih2⟩
        obtain ⟨_, _, hb3⟩ := ih1 b hb
        exact hb3 j hjb (List.mem_append.mpr (Or.inr hj))
      · simp only [bucketIndices, List.flatMap_cons, List.mem_append]
        rw [show (dedupBuckets (seen ++ (dedupOne seen l).1) rest).flatMap
              (fun b => b.2) =
            bucketIndices (dedupBuckets (seen ++ (dedupOne seen l).1) rest) from rfl,
          ih3 j,
          show rest.flatMap (fun b => b.2) = bucketIndices rest from rfl]
        constructor
        · rintro (hj | ⟨hj, hns⟩)
          · obtain ⟨hjl, hjs⟩ := (hmem j).mp hj
            exact ⟨Or.inl hjl, hjs⟩
          · exact ⟨Or.inr hj, fun hjs => hns (List.mem_append.mpr (Or.inl hjs))⟩
        · rintro ⟨hjl | hjr, hns⟩
          · exact Or.inl ((hmem j).mpr ⟨hjl, hns⟩)
          · by_cases hju : j ∈ (dedupOne seen l).1
            · exact Or.inl hju
            · refine Or.inr ⟨hjr, fun hjsu => ?_⟩
              rcases List.mem_append.mp hjsu with hjs | hjs
              · exact hns hjs
              · exact hju hjs

theorem bucketIndices_init (l : List String) :
    bucketIndices (l.map (fun n => (n, ([] : List Nat)))) = [] := by
  induction l with
  | nil => rfl
  | cons a t ih => simpa [bucketIndices, List.flatMap_cons] using ih

/-- C1: whenever the classification engine returns a partition (for any
product count, any taxonomy, and any classifier behaviour — valid labels,
unrecognized labels and call failures included), the partition's buckets are
non-empty and duplicate-free, their index sets are pairwise disjoint, and
their union is exactly the index range `1..N`. -/
theorem classify_partition_complete (N : Nat) (taxonomy : List String)
    (oracle : Nat → Option String) (P : List (String × List Nat))
    (h : classifyProducts N taxonomy oracle = some P) :
    (∀ b ∈ P, b.2 ≠ [] ∧ b.2.Nodup) ∧
    P.Pairwise (fun b1 b2 => ∀ i, i ∈ b1.2 → i ∉ b2.2) ∧
    (∀ i, (∃ b ∈ P, i ∈ b.2) ↔ 1 ≤ i ∧ i ≤ N) := by
  have hbridge : ∀ (dd : List (String × List Nat)) (i : Nat),
      (∃ b ∈ dd, i ∈ b.2) ↔ i ∈ bucketIndices dd := by
    intro dd i
    rw [bucketIndices, List.mem_flatMap]
  simp only [classifyProducts] at h
  split at h
  · exact absurd h (by simp)
  next d1 hloop =>
    split at h
    · exact absurd h (by simp)
    next d2 hmp =>
      obtain rfl := Option.some.inj h
      obtain ⟨hd1, hd2, hd3⟩ := dedupBuckets_spec (d2.filter (fun b => !b.2.isEmpty)) []
      have hmem1 := classifyLoop_mem oracle (List.range' 1 N) _ d1 hloop
      have hmem2 := missingPass_mem N d1 d2 hmp
      have hrange : ∀ j, j ∈ bucketIndices d2 ↔ j ∈ List.range' 1 N := by
        intro j
        rw [hmem2 j]
        constructor
        · rintro (hj | hj)
          · exact hj
          · rw [hmem1 j, bucketIndices_init] at hj
            rcases hj with hj | hj
            · exact hj
            · cases hj
        · exact Or.inl
      refine ⟨fun b hb => ⟨(hd1 b hb).1, (hd1 b hb).2.1⟩, hd2, fun i => ?_⟩
      rw [hbridge _ i, hd3 i, bucketIndices_filter_nonempty, hrange i,
        List.mem_range'_1]
      constructor
      · rintro ⟨⟨h1, h2⟩, _⟩
        exact ⟨h1, by omega⟩
      · rintro ⟨h1, h2⟩
        exact ⟨⟨h1, by omega⟩, by simp⟩

/-- Witness for `classify_partition_complete`: three products, taxonomy
`["A", "B"]`, and a classifier returning a valid label, an invalid label,
and a failure; the engine returns the single-bucket partition
`[("A", [1, 2, 3])]`, which satisfies all three invariants. -/
theorem classify_partition_complete_witness :
    (∀ b ∈ [("A", ([1, 2, 3] : List Nat))], b.2 ≠ [] ∧ b.2.Nodup) ∧
    List.Pairwise (fun b1 b2 => ∀ i, i ∈ b1.2 → i ∉ b2.2)
      [("A", ([1, 2, 3] : List Nat))] ∧
    (∀ i, (∃ b ∈ [("A", ([1, 2, 3] : List Nat))], i ∈ b.2) ↔ 1 ≤ i ∧ i ≤ 3) :=
  classify_partition_complete 3 ["A", "B"] oracleDemo
    [("A", [1, 2, 3])] (by decide)
